import Mathlib

/-!
Shallow embedding of the snippet-synthesis core of `pxt-monaco-typescript`
(`src/worker.ts`, class `TypeScriptWorker`): the completion filter
`getCompletionsAtPosition`, and the snippet synthesis in
`getCompletionEntryDetailsAndSnippet` (`renderDefaultVal`, `renderParameter`,
and the signature driver), together with the documentation-example
extraction regexes it uses.

JS `undefined` for an optional engine-provided field is modelled as
`Option.none`; a thrown `TypeError` (dereference of `undefined`) is modelled
as `Except.error ()`.  Strings are ASCII in all concrete inputs considered,
so the JS character classes `\s`, `\w` and the line terminators are modelled
by their ASCII parts.
-/

namespace PxtWorker

deriving instance DecidableEq for Except

/- Numeric values of `ts.TypeFlags` as in the vendored
`typescriptServices` engine (TypeScript 2.x era) that `worker.ts` imports. -/
namespace TypeFlags

def stringFlag : Nat := 2

def numberFlag : Nat := 4

def booleanFlag : Nat := 8

def enumFlag : Nat := 16

def stringLiteral : Nat := 32

def numberLiteral : Nat := 64

def booleanLiteral : Nat := 128

def enumLiteral : Nat := 256

def voidFlag : Nat := 1024

def object : Nat := 32768

def index : Nat := 262144

def numberLike : Nat := numberFlag ||| numberLiteral ||| enumFlag ||| enumLiteral

def stringLike : Nat := stringFlag ||| stringLiteral ||| index

def booleanLike : Nat := booleanFlag ||| booleanLiteral

end TypeFlags

/- Numeric values of `ts.ObjectFlags` in the vendored engine. -/
namespace ObjectFlags

def tuple : Nat := 8

def anonymous : Nat := 16

end ObjectFlags

/-- JS `\s` (ASCII part): characters matched by the whitespace class of the
extraction regex, also used by `String.prototype.trim`. -/
def isSpaceJs (c : Char) : Bool :=
  c == ' ' || c == '\t' || c == '\n' || c == '\r' || c == '\x0b' || c == '\x0c'

/-- JS line terminators (ASCII part): the characters NOT matched by `.`. -/
def isLineTerm (c : Char) : Bool := c == '\n' || c == '\r'

/-- JS `\w`: word characters, used for the `\b` boundary of the marker regex. -/
def isWordCharJs (c : Char) : Bool := c.isAlphanum || c == '_'

/-- The suffix `\s*(.+)` of the marker regex, attempted at `cs` after the
colon: group 1 when it matches.  `.` excludes line terminators, `+` is
greedy (runs to the end of the line). -/
def dotPlusAt (cs : List Char) : Option (List Char) :=
  match cs with
  | [] => none
  | c :: _ => if isLineTerm c then none else some (cs.takeWhile (fun d => !isLineTerm d))

/-- Backtracking of the greedy `\s*`: release whitespace characters from the
right until `(.+)` can match. -/
def wsBacktrack : Nat → List Char → Option (List Char)
  | 0, cs => dotPlusAt cs
  | k + 1, cs =>
    match dotPlusAt (cs.drop (k + 1)) with
    | some g => some g
    | none => wsBacktrack k cs

/-- Match `\s*(.+)` against `cs` (greedy `\s*` first, then backtrack),
returning group 1. -/
def dotPlusTail (cs : List Char) : Option (List Char) :=
  wsBacktrack (cs.takeWhile isSpaceJs).length cs

/-- Match `\.?:\s*(.+)` (the part of the marker regex after `eg`). -/
def egTail : List Char → Option (List Char)
  | [] => none
  | c :: r =>
    if c = ':' then dotPlusTail r
    else if c = '.' then
      match r with
      | [] => none
      | c2 :: r2 => if c2 = ':' then dotPlusTail r2 else none
    else none

/-- Match `g\.?:\s*(.+)` case-insensitively (the marker regex after its `e`). -/
def egAttempt : List Char → Option (List Char)
  | [] => none
  | g :: r => if g = 'g' ∨ g = 'G' then egTail r else none

/-- Leftmost-match scan of `/\beg\.?:\s*(.+)/i` over the documentation text:
`prevWord` records whether the previous character was a word character
(for the `\b` boundary).  Returns group 1 of the first match. -/
def outerScan : Bool → List Char → Option (List Char)
  | _, [] => none
  | prevWord, c :: cs =>
    match (if prevWord = false ∧ (c = 'e' ∨ c = 'E') then egAttempt cs else none) with
    | some g => some g
    | none => outerScan (isWordCharJs c) cs

/-- `/\beg\.?:\s*(.+)/i.exec(doc)`: group 1 of the first match, if any. -/
def outerExec (doc : String) : Option (List Char) :=
  outerScan false doc.data

/-- Groups of one match of the tokenizer regex
`/(?:"([^"]*)")|(?:'([^']*)')|(?:([^\s,]+))/g`; a group that did not
participate is `none` (JS `undefined`). -/
structure TokenMatch where
  g1 : Option String
  g2 : Option String
  g3 : Option String
deriving DecidableEq, Repr

/-- First match of the tokenizer regex: at each position try a
double-quoted substring, then a single-quoted substring, then a run of
characters that are neither whitespace nor commas; otherwise advance. -/
def innerScan : List Char → Option TokenMatch
  | [] => none
  | c :: cs =>
    if c = '"' ∧ cs.contains '"' then
      some ⟨some (String.mk (cs.takeWhile (fun d => d ≠ '"'))), none, none⟩
    else if c = '\'' ∧ cs.contains '\'' then
      some ⟨none, some (String.mk (cs.takeWhile (fun d => d ≠ '\''))), none⟩
    else if ¬ isSpaceJs c ∧ c ≠ ',' then
      some ⟨none, none, some (String.mk ((c :: cs).takeWhile (fun d => ¬ isSpaceJs d ∧ d ≠ ',')))⟩
    else innerScan cs

/-- JS `String.prototype.trim` on a character list. -/
def trimJs (cs : List Char) : List Char :=
  ((cs.dropWhile isSpaceJs).reverse.dropWhile isSpaceJs).reverse

/-- JS truthiness of a string-or-undefined value (`undefined` and the empty
string are falsy). -/
def truthyStr (o : Option String) : Bool :=
  match o with
  | some v => v ≠ ""
  | none => false

/-- The value the example branch of `renderParameter` returns from a
tokenizer match: `if (match[1] || match[2]) return `"${val}"`; return
match[3];` — `none` models returning the JS `undefined` third group. -/
def exampleToken (m : TokenMatch) : Option String :=
  if truthyStr m.g1 || truthyStr m.g2 then
    some ("\"" ++ (if truthyStr m.g1 then m.g1.getD "" else m.g2.getD "") ++ "\"")
  else m.g3

/-- Tokenize a (trimmed) example-candidate text and map the first match
through the example branch's return logic: `none` when no token matches
(control falls through), `some r` when the branch returns `r`. -/
def tokenizeExample (cs : List Char) : Option (Option String) :=
  (innerScan cs).map exampleToken

/-- The full documentation-example extraction of `renderParameter`:
`some r` means the example branch returns `r` (`r = none` is a returned
JS `undefined`); `none` means control falls through to type
classification (marker absent, or no token in the matched remainder). -/
def extractExample (doc : String) : Option (Option String) :=
  match outerExec doc with
  | none => none
  | some captured => tokenizeExample (trimJs captured)

/-- Name node of an enum member (`member.name`): its `kind` collapsed to
whether it is `ts.SyntaxKind.Identifier`, plus its text. -/
structure EnumMemberName where
  isIdentifierKind : Bool
  text : String
deriving DecidableEq, Repr

/-- An enum member of an enum declaration. -/
structure EnumMember where
  name : EnumMemberName
deriving DecidableEq, Repr

/-- Kind of a declaration, collapsed to whether it is
`ts.SyntaxKind.EnumDeclaration`. -/
inductive DeclKind where
  | enumDecl : DeclKind
  | otherDecl : DeclKind
deriving DecidableEq, Repr

/-- A declaration as consumed by the enum branch: its kind and, for enum
declarations, the member list (`none` models an absent `members` field). -/
structure Declaration where
  kind : DeclKind
  members : Option (List EnumMember)
deriving DecidableEq, Repr

/-- The symbol of an enum type (`enumParameter.symbol`): its name and the
result of `getDeclarations()` (`none` models JS `undefined`). -/
structure EnumSymbol where
  name : String
  declarations : Option (List Declaration)
deriving DecidableEq, Repr

/-- One call signature of an anonymous function type, as consumed by
`renderParameter`: the engine's display string for the signature
(`ts.displayPartsToString` of `buildSignatureDisplay`) and the flags of
`getReturnTypeOfSignature`. -/
structure InnerSignature where
  displayString : String
  returnFlags : Nat
deriving DecidableEq, Repr

/-- Snapshot of a parameter's type (`typeChecker.getTypeOfSymbolAtLocation`
result): its flag bitmask, object-flag bitmask, symbol, call signatures,
`typeToString` rendering and `intrinsicName` (`none` models an absent
field on a non-intrinsic type). -/
structure Ty where
  flags : Nat
  objectFlags : Nat
  symbol : Option EnumSymbol
  callSignatures : List InnerSignature
  typeString : String
  intrinsicName : Option String
deriving DecidableEq, Repr

/-- A parameter symbol as consumed by `renderParameter`: its name, its type
snapshot (`none` models an unresolvable type) and its documentation text
(`displayPartsToString(parameter.getDocumentationComment())`). -/
structure Parameter where
  name : String
  ty : Option Ty
  docText : String
deriving DecidableEq, Repr

/-- The `defaultImgLit` template string of `getCompletionEntryDetailsAndSnippet`. -/
def defaultImgLit : String :=
  "\n\t. . . . .\n\t. . . . .\n\t. . # . .\n\t. . . . .\n\t. . . . .\n\t"

/-- The generic named placeholder `${1:name}` (rule 6 of the synthesizer). -/
def genericPlaceholder (name : String) : String :=
  "$\x7b1:" ++ name ++ "\x7d"

/-- `renderDefaultVal` of `getCompletionEntryDetailsAndSnippet`: switch on
the intrinsic-name string; default case is the generic placeholder. -/
def renderDefaultVal (name : String) (type' : Option String) : String :=
  match type' with
  | some "number" => "0"
  | some "boolean" => "false"
  | some "string" => if name = "leds" then "`" ++ defaultImgLit ++ "`" else "\"\""
  | _ => genericPlaceholder name

/-- The enum branch's loop over `symbol.getDeclarations()`: pick the first
declaration of kind `EnumDeclaration`; if it has a nonempty member list
and the first member's name is an identifier, that identifier's text is
the `enumValue`; otherwise `enumValue` stays `undefined`. -/
def enumFirstValue (ds : List Declaration) : Option String :=
  match ds.find? (fun d => d.kind == DeclKind.enumDecl) with
  | some d =>
    match d.members with
    | some (m :: _) => if m.name.isIdentifierKind then some m.name.text else none
    | _ => none
  | none => none

/-- JS `s.lastIndexOf(":")` followed by `s.substr(0, idx)` (with
`substr(0, -1) = ""` when there is no colon), as used on the signature
display string. -/
def substrBeforeLastColon (s : String) : String :=
  match s.data.reverse.findIdx? (fun c => c == ':') with
  | some i => String.mk (s.data.take (s.data.length - 1 - i))
  | none => ""

/-- First index of the substring `"[]"` in a character list (JS
`String.prototype.indexOf`), `none` for `-1`. -/
def indexOfBrackets : List Char → Option Nat
  | '[' :: ']' :: _ => some 0
  | _ :: rest => (indexOfBrackets rest).map (· + 1)
  | [] => none

/-- The array-shape test `bracketIndex !== -1 && bracketIndex ===
typeString.length - 2`. -/
def endsWithBrackets (s : String) : Bool :=
  match indexOfBrackets s.data with
  | some i => i + 2 == s.data.length
  | none => false

/-- The body value of the synthesized anonymous-function literal, decided by
the return type's flags (`NumberLike`, then `StringLike`, then
`BooleanLike`, else the bare tab stop). -/
def anonReturnValue (returnFlags : Nat) : String :=
  if returnFlags &&& TypeFlags.numberLike ≠ 0 then "return 0;$0"
  else if returnFlags &&& TypeFlags.stringLike ≠ 0 then "return \"\";$0"
  else if returnFlags &&& TypeFlags.booleanLike ≠ 0 then "return false;$0"
  else "$0"

/-- `renderParameter` of `getCompletionEntryDetailsAndSnippet`.  The result
is `Except.error ()` when the JS code throws a `TypeError` (the enum
branch iterates `symbol.getDeclarations()` without guarding against an
`undefined` result), and otherwise `Except.ok r` where `r` is the
returned string (`none` models a returned JS `undefined`). -/
def renderParameter (p : Parameter) : Except Unit (Option String) :=
  match extractExample p.docText with
  | some returned => .ok returned
  | none =>
    match p.ty with
    | none => .ok (some (genericPlaceholder p.name))
    | some t =>
      if t.flags ≠ 0 then
        if t.flags &&& TypeFlags.enumLiteral ≠ 0 then
          match t.symbol with
          | some s =>
            match s.declarations with
            | none => .error ()
            | some ds =>
              match enumFirstValue ds with
              | some v => .ok (some (s.name ++ "." ++ v))
              | none => .ok (some (genericPlaceholder p.name))
          | none => .ok (some (genericPlaceholder p.name))
        else if t.flags &&& TypeFlags.object ≠ 0 then
          if t.objectFlags &&& ObjectFlags.anonymous ≠ 0 then
            match t.callSignatures with
            | [] => .ok (some ("function () \x7b\n\t$0\n\x7d"))
            | fs :: _ =>
              .ok (some ("function " ++ substrBeforeLastColon fs.displayString
                ++ " \x7b\n\t" ++ anonReturnValue fs.returnFlags ++ "\n\x7d"))
          else
            if t.flags &&& ObjectFlags.tuple ≠ 0 ∨ endsWithBrackets t.typeString then
              .ok (some "[]")
            else .ok (some (genericPlaceholder p.name))
        else if t.flags &&& TypeFlags.stringFlag ≠ 0 ∨ t.flags &&& TypeFlags.numberFlag ≠ 0
            ∨ t.flags &&& TypeFlags.booleanFlag ≠ 0 ∨ t.flags &&& TypeFlags.voidFlag ≠ 0 then
          .ok (some (renderDefaultVal p.name t.intrinsicName))
        else .ok (some (genericPlaceholder p.name))
      else .ok (some (genericPlaceholder p.name))

/-- A top-level call signature as consumed by the driver: its parameter
symbols and `minArgumentCount`. -/
structure Signature where
  parameters : List Parameter
  minArgumentCount : Nat
deriving Repr

/-- Snapshot of the resolved completion symbol as consumed by the driver:
whether `symbol.valueDeclaration && symbol.valueDeclaration.kind` is
truthy, and `type.getCallSignatures()`. -/
structure SymbolSnapshot where
  hasValueDeclaration : Bool
  callSignatures : List Signature
deriving Repr

/-- The driver's `forEach`/`push` loop over the sliced parameters: render
each parameter in order, propagating a thrown exception. -/
def renderList : List Parameter → Except Unit (List (Option String))
  | [] => .ok []
  | p :: ps =>
    match renderParameter p with
    | .error e => .error e
    | .ok r =>
      match renderList ps with
      | .error e => .error e
      | .ok rs => .ok (r :: rs)

/-- JS `Array.prototype.join(", ")`: `undefined` elements render as the
empty string. -/
def joinJs : List (Option String) → String
  | [] => ""
  | [x] => x.getD ""
  | x :: xs => x.getD "" ++ ", " ++ joinJs xs

/-- The snippet part of `getCompletionEntryDetailsAndSnippet`: starting
from the label, if the symbol has a value declaration and its type has
call signatures, take the first signature, render its first
`minArgumentCount` parameters (`parameters.slice(0, minArgumentCount)`),
and append the joined argument list in parentheses (an empty list gives
`()`); otherwise the label is returned unchanged. -/
def snippetOf (label : String) (sym : SymbolSnapshot) : Except Unit String :=
  if sym.hasValueDeclaration then
    match sym.callSignatures with
    | [] => .ok label
    | sig :: _ =>
      match renderList (sig.parameters.take sig.minArgumentCount) with
      | .error e => .error e
      | .ok args =>
        if 0 < args.length then .ok (label ++ "(" ++ joinJs args ++ ")")
        else .ok (label ++ "()")
  else .ok label

/-- One completion entry (name and `ScriptElementKind`, a string in the
engine's API). -/
structure CompletionEntry where
  name : String
  kind : String
deriving DecidableEq, Repr

/-- The `ignoredCompletions` table of `worker.ts` as (name, kind) pairs,
with the engine's string values of `ts.ScriptElementKind`. -/
def ignoredCompletions : List (String × String) :=
  [("Boolean", "interface"), ("Number", "interface"), ("String", "interface"),
   ("Function", "interface"), ("Object", "interface"),
   ("RegExp", "interface"), ("IArguments", "interface"),
   ("int16", "type"), ("int32", "type"), ("int8", "type"),
   ("uint16", "type"), ("uint32", "type"), ("uint8", "type"),
   ("instanceof", "keyword"), ("typeof", "keyword"), ("never", "keyword"),
   ("debugger", "keyword"), ("declare", "keyword"), ("export", "keyword"),
   ("global", "keyword"), ("keyof", "keyword"), ("module", "keyword"),
   ("var", "keyword"), ("in", "keyword"), ("from", "keyword"),
   ("import", "keyword"), ("delete", "keyword"), ("with", "keyword"),
   ("await", "keyword"), ("try", "keyword"), ("catch", "keyword"),
   ("finally", "keyword"), ("yield", "keyword"), ("as", "keyword"),
   ("async", "keyword"), ("abstract", "keyword"), ("any", "keyword"),
   ("undefined", "keyword"), ("throw", "keyword"), ("symbol", "keyword"),
   ("super", "keyword"), ("require", "keyword"), ("readonly", "keyword"),
   ("helpers", "module")]

/-- JS property lookup `ignoredCompletions[name]` (`none` for `undefined`). -/
def lookupIgnored (n : String) : Option String :=
  (ignoredCompletions.find? (fun pr => pr.1 == n)).map Prod.snd

/-- JS `String.prototype.indexOf` for a single character, `none` for `-1`. -/
def jsIndexOfChar (t : Char) : List Char → Option Nat
  | [] => none
  | c :: r => if c = t then some 0 else (jsIndexOfChar t r).map (· + 1)

/-- The filter predicate of `getCompletionsAtPosition`:
`ignoredCompletions[e.name] !== e.kind && e.name.indexOf('_') != 0`. -/
def keepEntry (e : CompletionEntry) : Bool :=
  decide (lookupIgnored e.name ≠ some e.kind) && decide (jsIndexOfChar '_' e.name.data ≠ some 0)

/-- The entry filtering applied by `getCompletionsAtPosition`. -/
def filterCompletions (es : List CompletionEntry) : List CompletionEntry :=
  es.filter keepEntry

/-- Snapshot of the intrinsic `number` type. -/
def numberTy : Ty := ⟨TypeFlags.numberFlag, 0, none, [], "number", some "number"⟩

/-- Snapshot of the intrinsic `string` type. -/
def stringTy : Ty := ⟨TypeFlags.stringFlag, 0, none, [], "string", some "string"⟩

/-- Snapshot of the intrinsic `boolean` type. -/
def boolTy : Ty := ⟨TypeFlags.booleanFlag, 0, none, [], "boolean", some "boolean"⟩

/-- Snapshot of an enum-literal type `Led { White, Red }` whose members are
identifier-named, as the engine reports it for a parameter of type `Led`. -/
def ledEnumTy : Ty :=
  ⟨TypeFlags.enumLiteral, 0,
   some ⟨"Led", some [⟨DeclKind.enumDecl, some [⟨⟨true, "White"⟩⟩, ⟨⟨true, "Red"⟩⟩]⟩]⟩,
   [], "Led", none⟩

/-- Snapshot of an enum-literal type whose symbol has no declarations
(`getDeclarations()` returns `undefined`), a partial-information input. -/
def enumTyNoDecls : Ty :=
  ⟨TypeFlags.enumLiteral, 0, some ⟨"Led", none⟩, [], "Led", none⟩

/-- Snapshot of an enum-literal type `Led` whose first declared member is
named by a string literal (`enum Led \x7b "a b" = 1, Red \x7d`), so the first
member's name node is not an identifier. -/
def enumTyStringNamedMember : Ty :=
  ⟨TypeFlags.enumLiteral, 0,
   some ⟨"Led", some [⟨DeclKind.enumDecl, some [⟨⟨false, "a b"⟩⟩, ⟨⟨true, "Red"⟩⟩]⟩]⟩,
   [], "Led", none⟩

/-- Snapshot of the anonymous function type `() => number`: one call
signature displayed as `(): number` with a `number` return type. -/
def anonFnNumTy : Ty :=
  ⟨TypeFlags.object, ObjectFlags.anonymous, none,
   [⟨"(): number", TypeFlags.numberFlag⟩], "() => number", none⟩

/-- Snapshot of an anonymous object type with no call signature (an object
literal type such as `\x7b\x7d`). -/
def anonNoSigTy : Ty :=
  ⟨TypeFlags.object, ObjectFlags.anonymous, none, [], "\x7b\x7d", none⟩

/-- An example signature `(speed: number, msg: string)` with two required
parameters. -/
def sigMove : Signature :=
  ⟨[⟨"speed", some numberTy, ""⟩, ⟨"msg", some stringTy, ""⟩], 2⟩

/-- An example callable symbol whose type has `sigMove` as its only call
signature. -/
def symMove : SymbolSnapshot := ⟨true, [sigMove]⟩

/-- Rendering the sliced parameter list preserves its length: one pushed
placeholder per rendered parameter. -/
theorem renderList_length (l : List Parameter) (res : List (Option String))
    (h : renderList l = .ok res) : res.length = l.length := by
  induction l generalizing res with
  | nil =>
    simp only [renderList] at h
    cases h
    rfl
  | cons p ps ih =>
    simp only [renderList] at h
    cases hr : renderParameter p with
    | error e => rw [hr] at h; cases h
    | ok r =>
      rw [hr] at h
      cases hrs : renderList ps with
      | error e => rw [hrs] at h; cases h
      | ok rs =>
        rw [hrs] at h
        cases h
        simp [ih rs hrs]

/-- A nonzero masked value forces a nonzero bitmask. -/
theorem flags_ne_zero_of_bit {a b : Nat} (h : a &&& b ≠ 0) : a ≠ 0 := by
  intro ha
  exact h (by simp [ha])

/-- Claim C1: for a resolved callable symbol whose first call signature has
`k = minArgumentCount` required parameters (the engine guarantees
`k ≤ parameters.length`), the synthesized call carries exactly `k`
per-parameter placeholder strings, rendered in parameter order and
comma-joined; optional and rest parameters (those past `k`) are never
rendered. -/
theorem c1_snippet_arg_count (label : String) (sym : SymbolSnapshot)
    (sig : Signature) (rest : List Signature) (args : List (Option String))
    (hvd : sym.hasValueDeclaration = true)
    (hsigs : sym.callSignatures = sig :: rest)
    (hk : sig.minArgumentCount ≤ sig.parameters.length)
    (hargs : renderList (sig.parameters.take sig.minArgumentCount) = .ok args) :
    args.length = sig.minArgumentCount ∧
      snippetOf label sym =
        .ok (if 0 < args.length then label ++ "(" ++ joinJs args ++ ")" else label ++ "()") := by
  have hlen : args.length = sig.minArgumentCount := by
    rw [renderList_length _ _ hargs, List.length_take]
    exact Nat.min_eq_left hk
  refine ⟨hlen, ?_⟩
  simp only [snippetOf, hvd, hsigs, hargs, if_true]
  by_cases h : 0 < args.length
  · rw [if_pos h, if_pos h]
  · rw [if_neg h, if_neg h]

/-- Claim C1 witness: a concrete two-required-parameter signature yields a
two-argument snippet. -/
theorem c1_witness :
    ([some "0", some "\"\""] : List (Option String)).length = sigMove.minArgumentCount ∧
      snippetOf "move" symMove = .ok "move(0, \"\")" := by
  have h := c1_snippet_arg_count "move" symMove sigMove [] [some "0", some "\"\""]
    rfl rfl (by decide) (by decide)
  exact ⟨h.1, h.2.trans (by decide)⟩

/-- Claim C9: a resolved symbol whose type exposes zero call signatures
keeps the label unchanged (no parentheses appended), and a callable
symbol whose first signature has zero required parameters gets the label
followed by an empty parameter list. -/
theorem c9_uncallable_label_and_empty_parens (label : String) (sym : SymbolSnapshot) :
    (sym.callSignatures = [] → snippetOf label sym = .ok label) ∧
    (∀ sig rest, sym.hasValueDeclaration = true → sym.callSignatures = sig :: rest →
      sig.minArgumentCount = 0 → snippetOf label sym = .ok (label ++ "()")) := by
  constructor
  · intro h
    cases hvd : sym.hasValueDeclaration <;> simp [snippetOf, hvd, h]
  · intro sig rest hvd hsigs hmin
    simp [snippetOf, hvd, hsigs, hmin, renderList]

/-- Claim C9 witness: concrete non-callable and zero-required-parameter
symbols. -/
theorem c9_witness :
    snippetOf "foo" ⟨true, []⟩ = .ok "foo" ∧
      snippetOf "bar" ⟨true, [⟨[], 0⟩]⟩ = .ok (("bar" : String) ++ "()") := by
  refine ⟨(c9_uncallable_label_and_empty_parens "foo" ⟨true, []⟩).1 rfl, ?_⟩
  exact (c9_uncallable_label_and_empty_parens "bar" ⟨true, [⟨[], 0⟩]⟩).2 ⟨[], 0⟩ [] rfl rfl rfl

/-- Claim C2 (code bug): for a parameter whose enum-literal type has a
symbol but the symbol's `getDeclarations()` is `undefined` (a partial
type-information snapshot), the enum branch of `renderParameter`
dereferences `enumDeclarations.length` on `undefined` and throws,
instead of falling through to the generic placeholder. -/
theorem c2_enum_without_declarations_faults :
    renderParameter ⟨"color", some enumTyNoDecls, ""⟩ = .error () := by decide

/-- Claim C3 counterexample: an enum-literal type with a resolvable enum
declaration having at least one member, whose first member is named by a
string literal rather than an identifier; synthesis falls through to the
generic named placeholder instead of emitting `EnumName.FirstMemberName`. -/
theorem c3_counterexample :
    renderParameter ⟨"color", some enumTyStringNamedMember, ""⟩
        = .ok (some (genericPlaceholder "color")) ∧
      renderParameter ⟨"color", some enumTyStringNamedMember, ""⟩ ≠ .ok (some "Led.a b") := by
  constructor <;> decide

/-- Claim C3 as amended: for an enum-literal parameter type, if the symbol
resolves, its declarations contain an enum declaration whose member list
is nonempty AND the first member's name is an identifier, synthesis
emits `EnumName.FirstMemberName` (first declared member in source
order); in every other resolution outcome with a present declarations
list (no symbol, no enum declaration, absent or empty member list, or a
non-identifier first member name) it falls through to the generic named
placeholder. -/
theorem c3_enum_first_member (p : Parameter) (t : Ty)
    (hdoc : extractExample p.docText = none)
    (hty : p.ty = some t)
    (henum : t.flags &&& TypeFlags.enumLiteral ≠ 0) :
    (t.symbol = none → renderParameter p = .ok (some (genericPlaceholder p.name))) ∧
    (∀ s ds d m ms, t.symbol = some s → s.declarations = some ds →
      ds.find? (fun x => x.kind == DeclKind.enumDecl) = some d →
      d.members = some (m :: ms) → m.name.isIdentifierKind = true →
      renderParameter p = .ok (some (s.name ++ "." ++ m.name.text))) ∧
    (∀ s ds d m ms, t.symbol = some s → s.declarations = some ds →
      ds.find? (fun x => x.kind == DeclKind.enumDecl) = some d →
      d.members = some (m :: ms) → m.name.isIdentifierKind = false →
      renderParameter p = .ok (some (genericPlaceholder p.name))) ∧
    (∀ s ds, t.symbol = some s → s.declarations = some ds →
      ds.find? (fun x => x.kind == DeclKind.enumDecl) = none →
      renderParameter p = .ok (some (genericPlaceholder p.name))) ∧
    (∀ s ds d, t.symbol = some s → s.declarations = some ds →
      ds.find? (fun x => x.kind == DeclKind.enumDecl) = some d →
      (d.members = none ∨ d.members = some []) →
      renderParameter p = .ok (some (genericPlaceholder p.name))) := by
  have hflags : t.flags ≠ 0 := flags_ne_zero_of_bit henum
  refine ⟨?_, ?_, ?_, ?_, ?_⟩
  · intro hsym
    simp [renderParameter, hdoc, hty, hflags, henum, hsym]
  · intro s ds d m ms hsym hds hfind hmem hident
    simp [renderParameter, hdoc, hty, hflags, henum, hsym, hds, enumFirstValue,
      hfind, hmem, hident]
  · intro s ds d m ms hsym hds hfind hmem hident
    simp [renderParameter, hdoc, hty, hflags, henum, hsym, hds, enumFirstValue,
      hfind, hmem, hident]
  · intro s ds hsym hds hfind
    simp [renderParameter, hdoc, hty, hflags, henum, hsym, hds, enumFirstValue, hfind]
  · intro s ds d hsym hds hfind hmem
    rcases hmem with hmem | hmem <;>
      simp [renderParameter, hdoc, hty, hflags, henum, hsym, hds, enumFirstValue,
        hfind, hmem]

/-- Claim C3 witness: the enum `Led \x7b White, Red \x7d` with identifier-named
members yields `Led.White`. -/
theorem c3_witness :
    renderParameter ⟨"color", some ledEnumTy, ""⟩ = .ok (some "Led.White") := by
  have h := (c3_enum_first_member ⟨"color", some ledEnumTy, ""⟩ ledEnumTy
    (by decide) rfl (by decide)).2.1
    ⟨"Led", some [⟨DeclKind.enumDecl, some [⟨⟨true, "White"⟩⟩, ⟨⟨true, "Red"⟩⟩]⟩]⟩
    [⟨DeclKind.enumDecl, some [⟨⟨true, "White"⟩⟩, ⟨⟨true, "Red"⟩⟩]⟩]
    ⟨DeclKind.enumDecl, some [⟨⟨true, "White"⟩⟩, ⟨⟨true, "Red"⟩⟩]⟩
    ⟨⟨true, "White"⟩⟩ [⟨⟨true, "Red"⟩⟩] rfl rfl (by decide) rfl rfl
  exact h.trans (by decide)

/-- Claim C4 counterexample: a parameter whose type is an anonymous object
type exposing no call signature still gets a function literal (with the
default empty parameter list and tab-stop body); it does not fall
through to the generic named placeholder. -/
theorem c4_counterexample :
    renderParameter ⟨"body", some anonNoSigTy, ""⟩
        = .ok (some "function () \x7b\n\t$0\n\x7d") ∧
      renderParameter ⟨"body", some anonNoSigTy, ""⟩ ≠ .ok (some (genericPlaceholder "body")) := by
  constructor <;> decide

/-- Claim C4 as amended: for every parameter whose type is an anonymous
object type with no call signature, synthesis emits the default function
literal `function () \x7b ... \x7d` with a bare tab-stop body (the
unconditional return of the anonymous branch), never the generic named
placeholder. -/
theorem c4_anonymous_without_signature (p : Parameter) (t : Ty)
    (hdoc : extractExample p.docText = none)
    (hty : p.ty = some t)
    (henum : t.flags &&& TypeFlags.enumLiteral = 0)
    (hobj : t.flags &&& TypeFlags.object ≠ 0)
    (hanon : t.objectFlags &&& ObjectFlags.anonymous ≠ 0)
    (hsigs : t.callSignatures = []) :
    renderParameter p = .ok (some "function () \x7b\n\t$0\n\x7d") := by
  have hflags : t.flags ≠ 0 := flags_ne_zero_of_bit hobj
  simp [renderParameter, hdoc, hty, hflags, henum, hobj, hanon, hsigs]

/-- Claim C4 witness: a concrete anonymous object type with no call
signature. -/
theorem c4_witness :
    renderParameter ⟨"body", some anonNoSigTy, "no marker here"⟩
      = .ok (some "function () \x7b\n\t$0\n\x7d") :=
  c4_anonymous_without_signature ⟨"body", some anonNoSigTy, "no marker here"⟩ anonNoSigTy
    (by decide) rfl (by decide) (by decide) (by decide) rfl

/-- Claim C7: for a parameter of an anonymous function type with at least
one call signature, the synthesized function literal's body is a single
return statement chosen by the return kind — `return 0;` for a
number-like return, `return ""` for a string-like return, `return
false;` for a boolean-like return — and the return is omitted entirely
otherwise (only the editor tab stop `$0` remains); the parameter list is
the signature's display string stripped of its return-type annotation. -/
theorem c7_anonymous_function_body (p : Parameter) (t : Ty)
    (fs : InnerSignature) (rest : List InnerSignature)
    (hdoc : extractExample p.docText = none)
    (hty : p.ty = some t)
    (henum : t.flags &&& TypeFlags.enumLiteral = 0)
    (hobj : t.flags &&& TypeFlags.object ≠ 0)
    (hanon : t.objectFlags &&& ObjectFlags.anonymous ≠ 0)
    (hsigs : t.callSignatures = fs :: rest) :
    (fs.returnFlags &&& TypeFlags.numberLike ≠ 0 →
      renderParameter p = .ok (some ("function " ++ substrBeforeLastColon fs.displayString
        ++ " \x7b\n\treturn 0;$0\n\x7d"))) ∧
    (fs.returnFlags &&& TypeFlags.numberLike = 0 →
      fs.returnFlags &&& TypeFlags.stringLike ≠ 0 →
      renderParameter p = .ok (some ("function " ++ substrBeforeLastColon fs.displayString
        ++ " \x7b\n\treturn \"\";$0\n\x7d"))) ∧
    (fs.returnFlags &&& TypeFlags.numberLike = 0 →
      fs.returnFlags &&& TypeFlags.stringLike = 0 →
      fs.returnFlags &&& TypeFlags.booleanLike ≠ 0 →
      renderParameter p = .ok (some ("function " ++ substrBeforeLastColon fs.displayString
        ++ " \x7b\n\treturn false;$0\n\x7d"))) ∧
    (fs.returnFlags &&& TypeFlags.numberLike = 0 →
      fs.returnFlags &&& TypeFlags.stringLike = 0 →
      fs.returnFlags &&& TypeFlags.booleanLike = 0 →
      renderParameter p = .ok (some ("function " ++ substrBeforeLastColon fs.displayString
        ++ " \x7b\n\t$0\n\x7d"))) := by
  have hflags : t.flags ≠ 0 := flags_ne_zero_of_bit hobj
  refine ⟨?_, ?_, ?_, ?_⟩
  · intro hnum
    simp [renderParameter, hdoc, hty, hflags, henum, hobj, hanon, hsigs,
      anonReturnValue, hnum, String.append_assoc]
  · intro hnum hstr
    simp [renderParameter, hdoc, hty, hflags, henum, hobj, hanon, hsigs,
      anonReturnValue, hnum, hstr, String.append_assoc]
  · intro hnum hstr hbool
    simp [renderParameter, hdoc, hty, hflags, henum, hobj, hanon, hsigs,
      anonReturnValue, hnum, hstr, hbool, String.append_assoc]
  · intro hnum hstr hbool
    simp [renderParameter, hdoc, hty, hflags, henum, hobj, hanon, hsigs,
      anonReturnValue, hnum, hstr, hbool, String.append_assoc]

/-- Claim C7 witness: a parameter typed `() => number` yields a function
literal whose body returns 0. -/
theorem c7_witness :
    renderParameter ⟨"cb", some anonFnNumTy, ""⟩
      = .ok (some "function () \x7b\n\treturn 0;$0\n\x7d") := by
  have h := (c7_anonymous_function_body ⟨"cb", some anonFnNumTy, ""⟩ anonFnNumTy
    ⟨"(): number", TypeFlags.numberFlag⟩ [] (by decide) rfl (by decide) (by decide)
    (by decide) rfl).1 (by decide)
  exact h.trans (by decide)

/-- Claim C8: with no usable documentation example, a string-typed
parameter named exactly `leds` gets the multi-line blank-image block
literal, any other string-typed parameter gets an empty-string literal,
a number-typed parameter gets `0`, and a boolean-typed parameter gets
`false`. -/
theorem c8_primitive_defaults (p : Parameter) (t : Ty)
    (hdoc : extractExample p.docText = none)
    (hty : p.ty = some t)
    (henum : t.flags &&& TypeFlags.enumLiteral = 0)
    (hobj : t.flags &&& TypeFlags.object = 0) :
    (t.flags &&& TypeFlags.stringFlag ≠ 0 → t.intrinsicName = some "string" →
      p.name = "leds" → renderParameter p = .ok (some ("`" ++ defaultImgLit ++ "`"))) ∧
    (t.flags &&& TypeFlags.stringFlag ≠ 0 → t.intrinsicName = some "string" →
      p.name ≠ "leds" → renderParameter p = .ok (some "\"\"")) ∧
    (t.flags &&& TypeFlags.numberFlag ≠ 0 → t.intrinsicName = some "number" →
      renderParameter p = .ok (some "0")) ∧
    (t.flags &&& TypeFlags.booleanFlag ≠ 0 → t.intrinsicName = some "boolean" →
      renderParameter p = .ok (some "false")) := by
  refine ⟨?_, ?_, ?_, ?_⟩
  · intro hbit hintr hname
    have hflags : t.flags ≠ 0 := flags_ne_zero_of_bit hbit
    simp [renderParameter, hdoc, hty, hflags, henum, hobj, hbit, hintr,
      renderDefaultVal, hname]
  · intro hbit hintr hname
    have hflags : t.flags ≠ 0 := flags_ne_zero_of_bit hbit
    simp [renderParameter, hdoc, hty, hflags, henum, hobj, hbit, hintr,
      renderDefaultVal, hname]
  · intro hbit hintr
    have hflags : t.flags ≠ 0 := flags_ne_zero_of_bit hbit
    simp [renderParameter, hdoc, hty, hflags, henum, hobj, hbit, hintr,
      renderDefaultVal]
  · intro hbit hintr
    have hflags : t.flags ≠ 0 := flags_ne_zero_of_bit hbit
    simp [renderParameter, hdoc, hty, hflags, henum, hobj, hbit, hintr,
      renderDefaultVal]

/-- Claim C8 witness: concrete `leds`-named and otherwise-named string
parameters, plus number and boolean parameters. -/
theorem c8_witness :
    renderParameter ⟨"leds", some stringTy, ""⟩ = .ok (some ("`" ++ defaultImgLit ++ "`")) ∧
      renderParameter ⟨"msg", some stringTy, ""⟩ = .ok (some "\"\"") ∧
      renderParameter ⟨"speed", some numberTy, ""⟩ = .ok (some "0") ∧
      renderParameter ⟨"on", some boolTy, ""⟩ = .ok (some "false") := by
  refine ⟨?_, ?_, ?_, ?_⟩
  · exact (c8_primitive_defaults ⟨"leds", some stringTy, ""⟩ stringTy (by decide) rfl
      (by decide) (by decide)).1 (by decide) rfl rfl
  · exact (c8_primitive_defaults ⟨"msg", some stringTy, ""⟩ stringTy (by decide) rfl
      (by decide) (by decide)).2.1 (by decide) rfl (by decide)
  · exact (c8_primitive_defaults ⟨"speed", some numberTy, ""⟩ numberTy (by decide) rfl
      (by decide) (by decide)).2.2.1 (by decide) rfl
  · exact (c8_primitive_defaults ⟨"on", some boolTy, ""⟩ boolTy (by decide) rfl
      (by decide) (by decide)).2.2.2 (by decide) rfl

/-- Matching `\.?:\s*(.+)` requires a colon in the input. -/
theorem egTail_eq_none_of_no_colon (cs : List Char) (h : (':' : Char) ∉ cs) :
    egTail cs = none := by
  cases cs with
  | nil => rfl
  | cons c r =>
    have hc : c ≠ ':' := by intro e; exact h (by simp [e])
    by_cases hd : c = '.'
    · subst hd
      cases r with
      | nil => simp [egTail]
      | cons c2 r2 =>
        have hc2 : c2 ≠ ':' := by intro e; apply h; simp [e]
        simp [egTail, hc2]
    · simp [egTail, hc, hd]

/-- Matching `g\.?:\s*(.+)` requires a colon in the input. -/
theorem egAttempt_eq_none_of_no_colon (cs : List Char) (h : (':' : Char) ∉ cs) :
    egAttempt cs = none := by
  cases cs with
  | nil => rfl
  | cons g r =>
    have hr : (':' : Char) ∉ r := fun m => h (List.mem_cons_of_mem _ m)
    by_cases hg : g = 'g' ∨ g = 'G'
    · simp [egAttempt, hg, egTail_eq_none_of_no_colon r hr]
    · simp [egAttempt, hg]

/-- The marker regex `/\beg\.?:\s*(.+)/i` cannot match a text without a
colon. -/
theorem outerScan_eq_none_of_no_colon (cs : List Char) :
    ∀ prev : Bool, (':' : Char) ∉ cs → outerScan prev cs = none := by
  induction cs with
  | nil => intro prev _; rfl
  | cons c cs ih =>
    intro prev h
    have h1 : (':' : Char) ∉ cs := fun m => h (List.mem_cons_of_mem _ m)
    by_cases hc : prev = false ∧ (c = 'e' ∨ c = 'E')
    · simp [outerScan, hc, egAttempt_eq_none_of_no_colon cs h1, ih (isWordCharJs c) h1]
    · simp [outerScan, hc, ih (isWordCharJs c) h1]

/-- Claim C5 counterexample: documentation `eg 5` (marker token without a
colon) yields no example at all — the extractor does not return the
candidate `5`. -/
theorem c5_counterexample :
    extractExample "eg 5" = none ∧ extractExample "eg 5" ≠ some (some "5") := by
  constructor <;> decide

/-- Claim C5 as amended: the annotation marker is the case-insensitive
token `eg`, optionally followed by a period, followed by a REQUIRED
colon.  A documentation text containing no colon never yields an
example (the extractor signals "no example" and synthesis falls through
to type classification); marker forms with the colon return the first
candidate. -/
theorem c5_marker_requires_colon :
    (∀ doc : String, (':' : Char) ∉ doc.data → extractExample doc = none) ∧
      extractExample "eg: 5" = some (some "5") ∧
      extractExample "eg.: 5" = some (some "5") ∧
      extractExample "EG: 5" = some (some "5") := by
  refine ⟨?_, by decide, by decide, by decide⟩
  intro doc h
  unfold extractExample outerExec
  rw [outerScan_eq_none_of_no_colon doc.data false h]

/-- Claim C5 witness: the colon-free documentation `eg 5` yields no
example. -/
theorem c5_witness : extractExample "eg 5" = none :=
  c5_marker_requires_colon.1 "eg 5" (by decide)

/-- The tokenizer regex skips leading whitespace and commas (characters
that cannot start any of its three alternatives). -/
theorem innerScan_append_skip (junk : List Char) :
    (∀ c ∈ junk, isSpaceJs c = true ∨ c = ',') →
      ∀ cs : List Char, innerScan (junk ++ cs) = innerScan cs := by
  induction junk with
  | nil => intro _ cs; rfl
  | cons a t ih =>
    intro h cs
    have ha := h a (List.mem_cons_self a t)
    have ht : ∀ c ∈ t, isSpaceJs c = true ∨ c = ',' :=
      fun c m => h c (List.mem_cons_of_mem _ m)
    have ha1 : ¬(a = '"' ∧ ((t ++ cs).contains '"') = true) := by
      rintro ⟨rfl, -⟩
      rcases ha with h1 | h1
      · exact absurd h1 (by decide)
      · exact absurd h1 (by decide)
    have ha2 : ¬(a = '\'' ∧ ((t ++ cs).contains '\'') = true) := by
      rintro ⟨rfl, -⟩
      rcases ha with h1 | h1
      · exact absurd h1 (by decide)
      · exact absurd h1 (by decide)
    have ha3 : ¬(¬ isSpaceJs a ∧ a ≠ ',') := by
      rintro ⟨hs, hcm⟩
      rcases ha with h1 | h1
      · exact hs h1
      · exact hcm h1
    show innerScan (a :: (t ++ cs)) = innerScan cs
    simp only [innerScan]
    rw [if_neg ha1, if_neg ha2, if_neg ha3]
    exact ih ht cs

/-- Taking while a predicate holds stops exactly at a sentinel that fails
it. -/
theorem takeWhile_all_append {p : Char → Bool} (q : Char) (rest : List Char)
    (hq : p q = false) :
    ∀ v : List Char, (∀ c ∈ v, p c = true) → (v ++ q :: rest).takeWhile p = v := by
  intro v
  induction v with
  | nil => intro _; simp [List.takeWhile_cons, hq]
  | cons a t ih =>
    intro hv
    have ha := hv a (List.mem_cons_self a t)
    simp [List.takeWhile_cons, ha, ih (fun c m => hv c (List.mem_cons_of_mem _ m))]

/-- A nonempty character list does not build the empty string. -/
theorem stringMk_ne_empty (v : List Char) (h : v ≠ []) : String.mk v ≠ "" := by
  intro e
  apply h
  have hd : (String.mk v).data = ("" : String).data := by rw [e]
  simpa using hd

/-- The tokenizer's first alternative: a double-quoted substring at the
current position captures its quote-free content into group 1. -/
theorem innerScan_dquote (v rest : List Char) (hv : ('"' : Char) ∉ v) :
    innerScan ('"' :: (v ++ '"' :: rest)) = some ⟨some (String.mk v), none, none⟩ := by
  have ht := takeWhile_all_append (p := fun d => !decide (d = '"')) '"' rest (by decide) v
    (fun c m => by
      have hne : c ≠ '"' := fun e => hv (e ▸ m)
      simp [hne])
  simp [innerScan, List.contains, ht]

/-- The tokenizer's second alternative: a single-quoted substring at the
current position captures its quote-free content into group 2. -/
theorem innerScan_squote (v rest : List Char) (hv : ('\'' : Char) ∉ v) :
    innerScan ('\'' :: (v ++ '\'' :: rest)) = some ⟨none, some (String.mk v), none⟩ := by
  have ht := takeWhile_all_append (p := fun d => !decide (d = '\'')) '\'' rest (by decide) v
    (fun c m => by
      have hne : c ≠ '\'' := fun e => hv (e ▸ m)
      simp [hne])
  simp [innerScan, List.contains, ht]

/-- The tokenizer's third alternative: an unquoted candidate is the maximal
run of characters that are neither whitespace nor commas. -/
theorem innerScan_unquoted (c : Char) (cs : List Char)
    (hsp : isSpaceJs c = false) (hcomma : c ≠ ',') (hdq : c ≠ '"') (hsq : c ≠ '\'') :
    innerScan (c :: cs) = some ⟨none, none,
      some (String.mk ((c :: cs).takeWhile (fun d => ¬ isSpaceJs d ∧ d ≠ ',')))⟩ := by
  have h1 : ¬(c = '"' ∧ (cs.contains '"') = true) := by rintro ⟨e, -⟩; exact hdq e
  have h2 : ¬(c = '\'' ∧ (cs.contains '\'') = true) := by rintro ⟨e, -⟩; exact hsq e
  have h3 : (¬ isSpaceJs c ∧ c ≠ ',') := ⟨by simp [hsp], hcomma⟩
  simp only [innerScan]
  rw [if_neg h1, if_neg h2, if_pos h3]

/-- Claim C6 counterexample: the documentation example `eg: ""` has a
quoted first candidate (with empty content); the example branch returns
the JS `undefined` value (the non-participating third group), not the
quoted content as a string literal. -/
theorem c6_counterexample :
    renderParameter ⟨"msg", some stringTy, "eg: \"\""⟩ = .ok none ∧
      renderParameter ⟨"msg", some stringTy, "eg: \"\""⟩ ≠ .ok (some "\"\"") := by
  constructor <;> decide

/-- Claim C6 as amended: a quoted first candidate (single or double quotes)
with NONEMPTY content is returned as its content wrapped in double
quotes (a string literal, irrespective of the parameter's type and of
the original quote style); an unquoted candidate is returned as the
first whitespace/comma-delimited token verbatim.  (An empty quoted
candidate instead yields the undefined third group — the
counterexample.) -/
theorem c6_example_token_rendering :
    (∀ junk v rest : List Char, (∀ c ∈ junk, isSpaceJs c = true ∨ c = ',') →
      ('"' : Char) ∉ v → v ≠ [] →
      tokenizeExample (junk ++ ('"' :: (v ++ '"' :: rest)))
        = some (some ("\"" ++ String.mk v ++ "\""))) ∧
    (∀ junk v rest : List Char, (∀ c ∈ junk, isSpaceJs c = true ∨ c = ',') →
      ('\'' : Char) ∉ v → v ≠ [] →
      tokenizeExample (junk ++ ('\'' :: (v ++ '\'' :: rest)))
        = some (some ("\"" ++ String.mk v ++ "\""))) ∧
    (∀ (junk : List Char) (c : Char) (cs : List Char),
      (∀ x ∈ junk, isSpaceJs x = true ∨ x = ',') →
      isSpaceJs c = false → c ≠ ',' → c ≠ '"' → c ≠ '\'' →
      tokenizeExample (junk ++ (c :: cs))
        = some (some (String.mk ((c :: cs).takeWhile (fun d => ¬ isSpaceJs d ∧ d ≠ ','))))) := by
  refine ⟨?_, ?_, ?_⟩
  · intro junk v rest hj hv hne
    unfold tokenizeExample
    rw [innerScan_append_skip junk hj, innerScan_dquote v rest hv]
    simp [exampleToken, truthyStr, stringMk_ne_empty v hne]
  · intro junk v rest hj hv hne
    unfold tokenizeExample
    rw [innerScan_append_skip junk hj, innerScan_squote v rest hv]
    simp [exampleToken, truthyStr, stringMk_ne_empty v hne]
  · intro junk c cs hj hsp hcomma hdq hsq
    unfold tokenizeExample
    rw [innerScan_append_skip junk hj, innerScan_unquoted c cs hsp hcomma hdq hsq]
    simp [exampleToken, truthyStr]

/-- Claim C6 witness: the quoted candidate `"ok"` is returned as the string
literal with double quotes, and the unquoted candidate `5, 6` returns
`5`. -/
theorem c6_witness :
    tokenizeExample ['"', 'o', 'k', '"'] = some (some "\"ok\"") ∧
      tokenizeExample ['5', ',', ' ', '6'] = some (some "5") := by
  constructor
  · exact (c6_example_token_rendering.1 [] ['o', 'k'] [] (by simp) (by decide)
      (by decide)).trans (by decide)
  · exact (c6_example_token_rendering.2.2 [] '5' [',', ' ', '6'] (by simp) (by decide)
      (by decide) (by decide) (by decide)).trans (by decide)

/-- Lookup in an association list with pairwise-distinct keys finds exactly
the pairs the list holds. -/
theorem find?_pairs_eq_iff (l : List (String × String)) :
    (l.map Prod.fst).Nodup → ∀ n k : String,
      ((l.find? (fun pr => pr.1 == n)).map Prod.snd = some k) ↔ (n, k) ∈ l := by
  induction l with
  | nil => intro _ n k; simp
  | cons a t ih =>
    intro hn n k
    rw [List.map_cons, List.nodup_cons] at hn
    obtain ⟨ha, ht⟩ := hn
    by_cases h : a.1 = n
    · rw [List.find?_cons_of_pos _ (by simp [h])]
      constructor
      · intro hk
        have hk2 : a.2 = k := by simpa using hk
        exact List.mem_cons.mpr (Or.inl (by rw [← h, ← hk2]))
      · intro hm
        rcases List.mem_cons.mp hm with he | hm2
        · simp [← he]
        · exact absurd (by rw [h]; exact List.mem_map_of_mem Prod.fst hm2 : a.1 ∈ t.map Prod.fst) ha
    · rw [List.find?_cons_of_neg _ (by simp [h])]
      rw [ih ht n k, List.mem_cons]
      constructor
      · exact fun hm => Or.inr hm
      · rintro (he | hm)
        · exact absurd (by rw [← he]) h
        · exact hm

/-- JS `name.indexOf('_') != 0` says exactly that the name does not start
with the character. -/
theorem jsIndexOfChar_ne_zero_iff (t : Char) (cs : List Char) :
    jsIndexOfChar t cs ≠ some 0 ↔ cs.head? ≠ some t := by
  cases cs with
  | nil => simp [jsIndexOfChar]
  | cons c r =>
    by_cases h : c = t
    · simp [jsIndexOfChar, h]
    · have hm : (jsIndexOfChar t r).map (· + 1) ≠ some 0 := by
        cases hr : jsIndexOfChar t r <;> simp
      simp [jsIndexOfChar, h, hm]

/-- The code's filter predicate agrees with the claim-side predicate "name
does not begin with an underscore and the (name, kind) pair is not in
the ignored table". -/
theorem keepEntry_eq_claim (e : CompletionEntry) :
    keepEntry e
      = decide (e.name.data.head? ≠ some '_' ∧ (e.name, e.kind) ∉ ignoredCompletions) := by
  have hnd : (ignoredCompletions.map Prod.fst).Nodup := by decide
  have h1 : (lookupIgnored e.name ≠ some e.kind) ↔ (e.name, e.kind) ∉ ignoredCompletions :=
    not_congr (find?_pairs_eq_iff ignoredCompletions hnd e.name e.kind)
  have h2 := jsIndexOfChar_ne_zero_iff '_' e.name.data
  have e1 : decide (lookupIgnored e.name ≠ some e.kind)
      = decide ((e.name, e.kind) ∉ ignoredCompletions) := decide_eq_decide.mpr h1
  have e2 : decide (jsIndexOfChar '_' e.name.data ≠ some 0)
      = decide (e.name.data.head? ≠ some '_') := decide_eq_decide.mpr h2
  unfold keepEntry
  rw [e1, e2]
  by_cases hA : (e.name, e.kind) ∉ ignoredCompletions <;>
    by_cases hB : e.name.data.head? ≠ some '_' <;> simp [hA, hB]

/-- Claim C10: every entry returned by `getCompletionsAtPosition` neither
begins with an underscore nor matches the ignored (name, kind) table;
the returned list is exactly the input filtered by that predicate, so
all other entries pass through unchanged in their original order (a
sublist of the input). -/
theorem c10_completion_filter (es : List CompletionEntry) :
    (∀ e ∈ filterCompletions es,
      e.name.data.head? ≠ some '_' ∧ (e.name, e.kind) ∉ ignoredCompletions) ∧
    filterCompletions es
      = es.filter (fun e =>
          decide (e.name.data.head? ≠ some '_' ∧ (e.name, e.kind) ∉ ignoredCompletions)) ∧
    (filterCompletions es).Sublist es := by
  refine ⟨?_, ?_, List.filter_sublist es⟩
  · intro e he
    rw [filterCompletions, List.mem_filter] at he
    have hk := he.2
    rw [keepEntry_eq_claim] at hk
    exact of_decide_eq_true hk
  · unfold filterCompletions
    exact List.filter_congr (fun e _ => keepEntry_eq_claim e)

/-- Claim C10 witness: a kept concrete entry is neither underscore-named
nor in the ignored table. -/
theorem c10_witness :
    (⟨"forever", "function"⟩ : CompletionEntry).name.data.head? ≠ some '_' ∧
      ("forever", "function") ∉ ignoredCompletions :=
  (c10_completion_filter [⟨"forever", "function"⟩]).1 ⟨"forever", "function"⟩ (by decide)

end PxtWorker
